import Mathlib

/-!
Shallow embedding of the retry core of `src/scripts/monitor.js` (the
`fetch-with-retries` module, lines 149-293): the transient-error classifier
`isTransientError`, the `jitter` backoff, the `Retry-After` handling, and
the attempt loop of `fetchWithRetry`.

Modelling conventions:
* JS numbers are modelled as `ℤ` / `ℚ` (no overflow is relevant at these
  magnitudes); `Math.random()` draws are an explicit stream `rand : ℕ → ℚ`
  of values in `[0, 1)`.
* The network is an oracle `ℕ → AttemptOutcome` giving the outcome of the
  k-th fetch attempt (1-based): a completed `Response` or a thrown error.
* `parseInt` / `Date.parse` applied to the Retry-After header are JS
  library functions; their outcome on the header string is modelled by the
  `RAHeader` datatype (successful integer parse, successful date parse
  carrying `retryDate - Date.now()` in ms, or neither).  An absent or
  empty (falsy) header is `none` at the use site.
* Console logging has no control-flow effect and is omitted; the body
  snippet read of line 232 is kept because it consumes the response body.
-/

namespace Monitor

/-- Constant `DEFAULT_RETRIES` (line 165): total attempts = retries + 1. -/
def DEFAULT_RETRIES : ℤ := 3

/-- Constant `DEFAULT_BACKOFF_BASE` (line 166), in ms. -/
def DEFAULT_BACKOFF_BASE : ℤ := 500

/-- Constant `MAX_RETRY_AFTER_SECS` (line 167), in seconds. -/
def MAX_RETRY_AFTER_SECS : ℤ := 120

/-- The `transientCodes` set of `isTransientError` (lines 175-177). -/
def transientCodes : List String :=
  ["ECONNRESET", "ETIMEDOUT", "EAI_AGAIN", "ENOTFOUND", "EPIPE", "ECONNREFUSED"]

/-- A JS error value as observed by `isTransientError` and the catch block:
only its `code` and `name` fields matter (`none` models `undefined`). -/
structure JsError where
  code : Option String
  name : Option String
deriving DecidableEq

/-- JS truthiness of an optional string (`err.code &&`): `undefined`/`null`
and the empty string are falsy. -/
def strTruthy : Option String → Bool
  | none => false
  | some s => s != ""

/-- Function `isTransientError` (lines 173-181).  The argument is `Option JsError`
so the `if (!err) return false` guard is represented (`none` = null/undefined). -/
def isTransientError : Option JsError → Bool
  | none => false
  | some err =>
    if strTruthy err.code && transientCodes.contains (err.code.getD "") then true
    else if err.name == some "FetchError" || err.name == some "AbortError" then true
    else false

/-- The local `delta` of `jitter` (line 185): `Math.floor(ms * 0.3 * r)`
where `r` models the `Math.random()` draw. -/
def jitterDelta (ms : ℤ) (r : ℚ) : ℤ := ⌊(ms : ℚ) * (3 / 10) * r⌋

/-- Function `jitter` (lines 183-187): `ms - Math.floor(delta / 2) + delta`. -/
def jitter (ms : ℤ) (r : ℚ) : ℤ :=
  ms - ⌊(jitterDelta ms r : ℚ) / 2⌋ + jitterDelta ms r

/-- Parse outcome of a present, non-empty Retry-After header value:
`parseInt` succeeds (line 240), or only `Date.parse` succeeds (line 245,
carrying `retryDate - Date.now()` in ms), or neither. -/
inductive RAHeader where
  | asInt (n : ℤ)
  | asDate (deltaMs : ℤ)
  | unparseable
deriving DecidableEq

/-- The Retry-After branch of `fetchWithRetry` (lines 238-251): the value
`waitMs` holds after that block, before the `waitMs <= 0` fallback test.
`maxRA` is `MAX_RETRY_AFTER_SECS`. -/
def headerWaitMs (maxRA : ℤ) : Option RAHeader → ℤ
  | some (.asInt n) => min n maxRA * 1000
  | some (.asDate deltaMs) => max 0 (min ⌊(deltaMs : ℚ) / 1000⌋ maxRA) * 1000
  | some .unparseable => 0
  | none => 0

/-- The wait computed for a retryable non-ok status (lines 237-255): the
header-derived wait if it is strictly positive, else exponential backoff
with jitter, `base = backoffBase * 2^(a-1)` for 1-based attempt number `a`
and `Math.random()` draw `r`. -/
def statusWaitMs (backoffBase maxRA : ℤ) (a : ℕ) (ra : Option RAHeader) (r : ℚ) : ℤ :=
  if headerWaitMs maxRA ra ≤ 0 then jitter (backoffBase * 2 ^ (a - 1)) r
  else headerWaitMs maxRA ra

/-- A completed HTTP response, as far as `fetchWithRetry` inspects it.
`retryAfter` is the parsed `headers.get("retry-after")` (see `RAHeader`);
`bodyUsed` is node-fetch's consumed-body flag. -/
structure Response where
  status : ℕ
  retryAfter : Option RAHeader
  body : String
  bodyUsed : Bool
deriving DecidableEq

/-- node-fetch `Response.ok`: status in [200, 300). -/
def respOk (s : ℕ) : Bool := 200 ≤ s && s < 300

/-- The status test of line 236: `status === 429 || (status >= 500 && status < 600)`. -/
def retryableStatus (s : ℕ) : Bool := s == 429 || (500 ≤ s && s < 600)

/-- node-fetch `res.text()`: yields the body and marks it consumed, or
rejects if the body was already consumed. -/
def textRead (r : Response) : Except String (String × Response) :=
  if r.bodyUsed then .error "body used already"
  else .ok (r.body, { r with bodyUsed := true })

/-- Function `readResponseSnippet` (lines 189-196): read the body and truncate it;
on failure return a placeholder string.  Returns the snippet together with
the response as the read leaves it. -/
def readResponseSnippet (r : Response) (maxLen : ℕ) : String × Response :=
  match textRead r with
  | .ok (t, r2) => (t.take maxLen, r2)
  | .error m => ("<failed to read response body: " ++ m ++ ">", r)

/-- Outcome of one `fetch` call: a completed response, or a thrown
transport error (connection failure, or the AbortError of the per-attempt
timeout). -/
inductive AttemptOutcome where
  | resp (r : Response)
  | err (e : JsError)

/-- How a `fetchWithRetry` call ends: `return res`, `throw err` with an
error that came out of an attempt, or the generic `new Error(...)` of
line 290 thrown when the loop never ran. -/
inductive FetchResult where
  | ret (r : Response)
  | raised (e : JsError)
  | raisedGeneric (msg : String)
deriving DecidableEq

/-- Observables of one `fetchWithRetry` call: its result, the number of
fetch attempts performed, and the `waitMs` values passed to `sleep`, in
order. -/
structure RunResult where
  result : FetchResult
  attempts : ℕ
  waits : List ℤ
deriving DecidableEq

/-- Lines 290-291: `throw (lastErr || new Error(...))`, the value built when
the loop exits without returning or raising. -/
def exitResult (url : String) : Option JsError → FetchResult
  | some e => .raised e
  | none => .raisedGeneric ("fetch-with-retries: failed to fetch " ++ url)

/-- The `while (attempt <= retries)` loop of `fetchWithRetry`
(lines 208-292).  `attempt` is the JS variable (pre-increment value at the
loop head); `oracle k` is the outcome of the k-th fetch and `rand k` the
`Math.random()` draw used if attempt k backs off.  `gas` makes the
recursion structural: `fetchWithRetry` supplies `gas = (retries + 1).toNat`,
so `gas = 0` holds exactly when the loop guard `attempt <= retries` fails,
and the `gas = 0` exit builds the same line 290-291 value as the guard-false
exit.  The body-snippet string is only logged, so it is dropped; the read
itself is kept via `readResponseSnippet` since it consumes the body. -/
def runFrom (url : String) (retries backoffBase maxRA : ℤ)
    (oracle : ℕ → AttemptOutcome) (rand : ℕ → ℚ) :
    ℕ → ℕ → Option JsError → List ℤ → RunResult
  | 0, attempt, lastErr, waits =>
    { result := exitResult url lastErr, attempts := attempt, waits := waits }
  | gas + 1, attempt, lastErr, waits =>
    if (attempt : ℤ) ≤ retries then
      -- attempt += 1 (line 212): the 1-based attempt number is attempt + 1
      match oracle (attempt + 1) with
      | .resp res =>
        if respOk res.status then
          { result := .ret res, attempts := attempt + 1, waits := waits }
        else
          -- line 232: diagnostic body read, consuming the response body
          let res2 := (readResponseSnippet res 1500).2
          if retryableStatus res2.status ∧ ((attempt + 1 : ℕ) : ℤ) ≤ retries then
            runFrom url retries backoffBase maxRA oracle rand gas (attempt + 1) lastErr
              (waits ++ [statusWaitMs backoffBase maxRA (attempt + 1) res2.retryAfter
                (rand (attempt + 1))])
          else
            { result := .ret res2, attempts := attempt + 1, waits := waits }
      | .err e =>
        if isTransientError (some e) ∧ ((attempt + 1 : ℕ) : ℤ) ≤ retries then
          runFrom url retries backoffBase maxRA oracle rand gas (attempt + 1) (some e)
            (waits ++ [jitter (backoffBase * 2 ^ (attempt + 1 - 1)) (rand (attempt + 1))])
        else
          { result := .raised e, attempts := attempt + 1, waits := waits }
    else
      { result := exitResult url lastErr, attempts := attempt, waits := waits }

/-- Function `fetchWithRetry(url, opts)` (lines 198-292) with the options already
resolved to `retries`, `backoffBase` and `MAX_RETRY_AFTER_SECS`
(lines 199-201: an integer `opts.retries` / `opts.backoffBase` is used
as-is, anything else falls back to the defaults). -/
def fetchWithRetry (url : String) (retries backoffBase maxRA : ℤ)
    (oracle : ℕ → AttemptOutcome) (rand : ℕ → ℚ) : RunResult :=
  runFrom url retries backoffBase maxRA oracle rand (retries + 1).toNat 0 none []

/-- A 503 response with no Retry-After header and a fresh body. -/
def resp503 : Response := { status := 503, retryAfter := none, body := "", bodyUsed := false }

/-- Network that answers 503 on every attempt. -/
def oracle503 : ℕ → AttemptOutcome := fun _ => .resp resp503

/-- Deterministic random stream drawing 0. -/
def rand0 : ℕ → ℚ := fun _ => 0

/-! ### Lemmas about the per-attempt pieces -/

/-- The diagnostic body read leaves the response with its body consumed
(and otherwise unchanged). -/
theorem readResponseSnippet_snd (r : Response) (n : ℕ) :
    (readResponseSnippet r n).2 = { r with bodyUsed := true } := by
  cases r with
  | mk status ra body bodyUsed =>
    cases bodyUsed <;> simp [readResponseSnippet, textRead]

theorem jitter_zero_draw (b : ℤ) : jitter b 0 = b := by
  simp [jitter, jitterDelta]

theorem jitterDelta_nonneg {ms : ℤ} {r : ℚ} (hms : 0 ≤ ms) (hr : 0 ≤ r) :
    0 ≤ jitterDelta ms r := by
  have hms' : (0 : ℚ) ≤ (ms : ℚ) := by exact_mod_cast hms
  exact Int.floor_nonneg.mpr (by positivity)

theorem jitterDelta_le {ms : ℤ} {r : ℚ} (hms : 0 ≤ ms) (hr1 : r ≤ 1) :
    (jitterDelta ms r : ℚ) ≤ 3 / 10 * (ms : ℚ) := by
  have hms' : (0 : ℚ) ≤ (ms : ℚ) := by exact_mod_cast hms
  have h1 : (ms : ℚ) * (3 / 10) * r ≤ (ms : ℚ) * (3 / 10) * 1 := by
    apply mul_le_mul_of_nonneg_left hr1
    positivity
  calc (jitterDelta ms r : ℚ) ≤ (ms : ℚ) * (3 / 10) * r := Int.floor_le _
    _ ≤ (ms : ℚ) * (3 / 10) * 1 := h1
    _ = 3 / 10 * (ms : ℚ) := by ring

/-- Identity `d - ⌊d/2⌋ = ⌈d/2⌉` for an integer `d`. -/
theorem sub_floor_half (d : ℤ) : d - ⌊(d : ℚ) / 2⌋ = ⌈(d : ℚ) / 2⌉ := by
  have hx : -((d : ℚ) / 2) = (d : ℚ) / 2 - (d : ℤ) := by ring
  have h1 : ⌊-((d : ℚ) / 2)⌋ = ⌊(d : ℚ) / 2⌋ - d := by rw [hx, Int.floor_sub_int]
  have h2 : ⌊-((d : ℚ) / 2)⌋ = -⌈(d : ℚ) / 2⌉ := Int.floor_neg
  omega

/-- The implemented jitter only moves upward: the result is at least `ms`. -/
theorem le_jitter {ms : ℤ} {r : ℚ} (hms : 0 ≤ ms) (hr : 0 ≤ r) :
    ms ≤ jitter ms r := by
  have hd := jitterDelta_nonneg hms hr
  have h2 : ⌊(jitterDelta ms r : ℚ) / 2⌋ ≤ jitterDelta ms r := by
    calc ⌊(jitterDelta ms r : ℚ) / 2⌋ ≤ ⌊(jitterDelta ms r : ℚ)⌋ := by
          apply Int.floor_le_floor
          have h0 : (0 : ℚ) ≤ (jitterDelta ms r : ℚ) := by exact_mod_cast hd
          linarith [half_le_self h0]
      _ = jitterDelta ms r := Int.floor_intCast _
  unfold jitter
  omega

/-- Upper bound on the jittered wait: at most `⌈1.15 * ms⌉`. -/
theorem jitter_le_ceil {ms : ℤ} {r : ℚ} (hms : 0 ≤ ms) (hr1 : r ≤ 1) :
    jitter ms r ≤ ⌈(23 / 20 : ℚ) * (ms : ℚ)⌉ := by
  have hdle : (jitterDelta ms r : ℚ) ≤ 3 / 10 * (ms : ℚ) := jitterDelta_le hms hr1
  have h3 : ⌈(jitterDelta ms r : ℚ) / 2⌉ ≤ ⌈(3 / 20 : ℚ) * (ms : ℚ)⌉ :=
    Int.ceil_le_ceil (by linarith)
  have h4 : ⌈(3 / 20 : ℚ) * (ms : ℚ) + (ms : ℤ)⌉ = ⌈(3 / 20 : ℚ) * (ms : ℚ)⌉ + ms :=
    Int.ceil_add_int _ _
  have h5 : (23 / 20 : ℚ) * (ms : ℚ) = (3 / 20 : ℚ) * (ms : ℚ) + ((ms : ℤ) : ℚ) := by
    ring
  have h6 := sub_floor_half (jitterDelta ms r)
  rw [h5, h4]
  unfold jitter
  omega

theorem statusWaitMs_no_header (bb maxRA : ℤ) (a : ℕ) (r : ℚ) :
    statusWaitMs bb maxRA a none r = jitter (bb * 2 ^ (a - 1)) r := by
  simp [statusWaitMs, headerWaitMs]

/-- When the header-derived wait is strictly positive it is used verbatim. -/
theorem statusWaitMs_header {bb maxRA : ℤ} {a : ℕ} {ra : Option RAHeader} {r : ℚ}
    (h : 0 < headerWaitMs maxRA ra) :
    statusWaitMs bb maxRA a ra r = headerWaitMs maxRA ra := by
  unfold statusWaitMs
  rw [if_neg (by omega)]

/-- A positive header-derived wait never exceeds `maxRA * 1000`. -/
theorem headerWaitMs_le_cap {maxRA : ℤ} {ra : Option RAHeader}
    (h : 0 < headerWaitMs maxRA ra) : headerWaitMs maxRA ra ≤ maxRA * 1000 := by
  match ra with
  | none => simp [headerWaitMs] at h
  | some .unparseable => simp [headerWaitMs] at h
  | some (.asInt n) =>
    simp only [headerWaitMs] at h ⊢
    omega
  | some (.asDate dm) =>
    simp only [headerWaitMs] at h ⊢
    omega

theorem statusWaitMs_nonneg {bb : ℤ} (maxRA : ℤ) (a : ℕ) (ra : Option RAHeader) {r : ℚ}
    (hb : 0 ≤ bb) (hr : 0 ≤ r) : 0 ≤ statusWaitMs bb maxRA a ra r := by
  unfold statusWaitMs
  split_ifs with h
  · have hbase : 0 ≤ bb * 2 ^ (a - 1) :=
      mul_nonneg hb (pow_nonneg (by norm_num) _)
    exact le_trans hbase (le_jitter hbase hr)
  · omega


/-! ### Step lemmas for the attempt loop -/

section Loop

variable {url : String} {retries backoffBase maxRA : ℤ}
variable {oracle : ℕ → AttemptOutcome} {rand : ℕ → ℚ}

theorem runFrom_zero (attempt : ℕ) (lastErr : Option JsError) (waits : List ℤ) :
    runFrom url retries backoffBase maxRA oracle rand 0 attempt lastErr waits
      = { result := exitResult url lastErr, attempts := attempt, waits := waits } := rfl

/-- Loop guard fails: exit via lines 290-291. -/
theorem runFrom_step_exit {gas attempt : ℕ} {lastErr : Option JsError} {waits : List ℤ}
    (h : ¬ (attempt : ℤ) ≤ retries) :
    runFrom url retries backoffBase maxRA oracle rand (gas + 1) attempt lastErr waits
      = { result := exitResult url lastErr, attempts := attempt, waits := waits } := by
  simp [runFrom, if_neg h]

/-- A successful attempt returns the response immediately (line 227). -/
theorem runFrom_step_ok {gas attempt : ℕ} {lastErr : Option JsError} {waits : List ℤ}
    {res : Response} (hg : (attempt : ℤ) ≤ retries)
    (ho : oracle (attempt + 1) = .resp res) (hok : respOk res.status = true) :
    runFrom url retries backoffBase maxRA oracle rand (gas + 1) attempt lastErr waits
      = { result := .ret res, attempts := attempt + 1, waits := waits } := by
  simp [runFrom, if_pos hg, ho, hok]

/-- A retryable non-ok status with budget left sleeps and loops (lines 236-258). -/
theorem runFrom_step_retry {gas attempt : ℕ} {lastErr : Option JsError} {waits : List ℤ}
    {res : Response} (hg : (attempt : ℤ) ≤ retries)
    (ho : oracle (attempt + 1) = .resp res) (hok : respOk res.status = false)
    (hretry : retryableStatus res.status = true)
    (hbudget : (attempt : ℤ) + 1 ≤ retries) :
    runFrom url retries backoffBase maxRA oracle rand (gas + 1) attempt lastErr waits
      = runFrom url retries backoffBase maxRA oracle rand gas (attempt + 1) lastErr
          (waits ++ [statusWaitMs backoffBase maxRA (attempt + 1) res.retryAfter
            (rand (attempt + 1))]) := by
  simp [runFrom, if_pos hg, ho, hok, readResponseSnippet_snd, hretry, hbudget]

/-- A terminal non-ok status, or a retryable one with the budget exhausted,
returns the body-consumed response (line 262). -/
theorem runFrom_step_terminal {gas attempt : ℕ} {lastErr : Option JsError} {waits : List ℤ}
    {res : Response} (hg : (attempt : ℤ) ≤ retries)
    (ho : oracle (attempt + 1) = .resp res) (hok : respOk res.status = false)
    (hstop : retryableStatus res.status = false ∨ ¬ ((attempt : ℤ) + 1 ≤ retries)) :
    runFrom url retries backoffBase maxRA oracle rand (gas + 1) attempt lastErr waits
      = { result := .ret { res with bodyUsed := true }, attempts := attempt + 1,
          waits := waits } := by
  have hcond : ¬ (retryableStatus res.status = true
      ∧ (attempt : ℤ) + 1 ≤ retries) := by
    rcases hstop with h | h
    · simp [h]
    · tauto
  simp [runFrom, if_pos hg, ho, hok, readResponseSnippet_snd, hcond]

/-- A transient transport error with budget left backs off and loops
(lines 275-280). -/
theorem runFrom_step_transient {gas attempt : ℕ} {lastErr : Option JsError} {waits : List ℤ}
    {e : JsError} (hg : (attempt : ℤ) ≤ retries)
    (ho : oracle (attempt + 1) = .err e) (htr : isTransientError (some e) = true)
    (hbudget : (attempt : ℤ) + 1 ≤ retries) :
    runFrom url retries backoffBase maxRA oracle rand (gas + 1) attempt lastErr waits
      = runFrom url retries backoffBase maxRA oracle rand gas (attempt + 1) (some e)
          (waits ++ [jitter (backoffBase * 2 ^ (attempt + 1 - 1)) (rand (attempt + 1))]) := by
  simp [runFrom, if_pos hg, ho, htr, hbudget]

/-- A fatal transport error, or a transient one with the budget exhausted,
re-raises the original error (line 283). -/
theorem runFrom_step_raise {gas attempt : ℕ} {lastErr : Option JsError} {waits : List ℤ}
    {e : JsError} (hg : (attempt : ℤ) ≤ retries)
    (ho : oracle (attempt + 1) = .err e)
    (hstop : isTransientError (some e) = false ∨ ¬ ((attempt : ℤ) + 1 ≤ retries)) :
    runFrom url retries backoffBase maxRA oracle rand (gas + 1) attempt lastErr waits
      = { result := .raised e, attempts := attempt + 1, waits := waits } := by
  have hcond : ¬ (isTransientError (some e) = true
      ∧ (attempt : ℤ) + 1 ≤ retries) := by
    rcases hstop with h | h
    · simp [h]
    · tauto
  simp [runFrom, if_pos hg, ho, hcond]

/-! ### Invariants of the attempt loop -/

/-- Each loop iteration performs exactly one fetch: the attempt counter at
exit stays within the initial budget. -/
theorem runFrom_attempts_le :
    ∀ (gas attempt : ℕ) (lastErr : Option JsError) (waits : List ℤ),
      (attempt : ℤ) + gas ≤ retries + 1 →
      ((runFrom url retries backoffBase maxRA oracle rand gas attempt lastErr
          waits).attempts : ℤ) ≤ retries + 1 := by
  intro gas
  induction gas with
  | zero =>
    intro attempt lastErr waits h
    rw [runFrom_zero]
    show ((attempt : ℕ) : ℤ) ≤ retries + 1
    push_cast at h
    omega
  | succ g ih =>
    intro attempt lastErr waits h
    push_cast at h
    by_cases hg : (attempt : ℤ) ≤ retries
    · cases horacle : oracle (attempt + 1) with
      | resp res =>
        by_cases hok : respOk res.status = true
        · rw [runFrom_step_ok hg horacle hok]
          show ((attempt + 1 : ℕ) : ℤ) ≤ retries + 1
          push_cast
          omega
        · rw [Bool.not_eq_true] at hok
          by_cases hbudget : (attempt : ℤ) + 1 ≤ retries
          · by_cases hretry : retryableStatus res.status = true
            · rw [runFrom_step_retry hg horacle hok hretry hbudget]
              apply ih
              push_cast
              omega
            · rw [Bool.not_eq_true] at hretry
              rw [runFrom_step_terminal hg horacle hok (Or.inl hretry)]
              show ((attempt + 1 : ℕ) : ℤ) ≤ retries + 1
              push_cast
              omega
          · rw [runFrom_step_terminal hg horacle hok (Or.inr hbudget)]
            show ((attempt + 1 : ℕ) : ℤ) ≤ retries + 1
            push_cast
            omega
      | err e =>
        by_cases hbudget : (attempt : ℤ) + 1 ≤ retries
        · by_cases htr : isTransientError (some e) = true
          · rw [runFrom_step_transient hg horacle htr hbudget]
            apply ih
            push_cast
            omega
          · rw [Bool.not_eq_true] at htr
            rw [runFrom_step_raise hg horacle (Or.inl htr)]
            show ((attempt + 1 : ℕ) : ℤ) ≤ retries + 1
            push_cast
            omega
        · rw [runFrom_step_raise hg horacle (Or.inr hbudget)]
          show ((attempt + 1 : ℕ) : ℤ) ≤ retries + 1
          push_cast
          omega
    · rw [runFrom_step_exit hg]
      show ((attempt : ℕ) : ℤ) ≤ retries + 1
      omega

/-- If the budget invariant `gas + attempt = retries + 1` holds and the loop
is entered (`1 ≤ gas`), the call ends by returning a response or by
re-raising an error thrown by one of its attempts; it never falls through
to line 290. -/
theorem runFrom_result_origin :
    ∀ (gas attempt : ℕ) (lastErr : Option JsError) (waits : List ℤ),
      (gas : ℤ) + attempt = retries + 1 → 1 ≤ gas →
      (∃ r, (runFrom url retries backoffBase maxRA oracle rand gas attempt lastErr
          waits).result = .ret r)
      ∨ (∃ e, (∃ k : ℕ, 1 ≤ k ∧ (k : ℤ) ≤ retries + 1 ∧ oracle k = .err e)
          ∧ (runFrom url retries backoffBase maxRA oracle rand gas attempt lastErr
              waits).result = .raised e) := by
  intro gas
  induction gas with
  | zero =>
    intro attempt lastErr waits h h1
    exact absurd h1 (by omega)
  | succ g ih =>
    intro attempt lastErr waits h h1
    push_cast at h
    have hg : (attempt : ℤ) ≤ retries := by omega
    cases horacle : oracle (attempt + 1) with
    | resp res =>
      by_cases hok : respOk res.status = true
      · rw [runFrom_step_ok hg horacle hok]
        exact Or.inl ⟨res, rfl⟩
      · rw [Bool.not_eq_true] at hok
        by_cases hbudget : (attempt : ℤ) + 1 ≤ retries
        · by_cases hretry : retryableStatus res.status = true
          · rw [runFrom_step_retry hg horacle hok hretry hbudget]
            apply ih
            · push_cast
              omega
            · omega
          · rw [Bool.not_eq_true] at hretry
            rw [runFrom_step_terminal hg horacle hok (Or.inl hretry)]
            exact Or.inl ⟨{ res with bodyUsed := true }, rfl⟩
        · rw [runFrom_step_terminal hg horacle hok (Or.inr hbudget)]
          exact Or.inl ⟨{ res with bodyUsed := true }, rfl⟩
    | err e =>
      by_cases hbudget : (attempt : ℤ) + 1 ≤ retries
      · by_cases htr : isTransientError (some e) = true
        · rw [runFrom_step_transient hg horacle htr hbudget]
          apply ih
          · push_cast
            omega
          · omega
        · rw [Bool.not_eq_true] at htr
          rw [runFrom_step_raise hg horacle (Or.inl htr)]
          refine Or.inr ⟨e, ⟨attempt + 1, by omega, ?_, horacle⟩, rfl⟩
          push_cast
          omega
      · rw [runFrom_step_raise hg horacle (Or.inr hbudget)]
        refine Or.inr ⟨e, ⟨attempt + 1, by omega, ?_, horacle⟩, rfl⟩
        push_cast
        omega

/-- The waits list only grows: the accumulator stays a prefix. -/
theorem runFrom_waits_acc :
    ∀ (gas attempt : ℕ) (lastErr : Option JsError) (waits : List ℤ),
      ∃ rest, (runFrom url retries backoffBase maxRA oracle rand gas attempt lastErr
          waits).waits = waits ++ rest := by
  intro gas
  induction gas with
  | zero =>
    intro attempt lastErr waits
    exact ⟨[], by rw [runFrom_zero]; simp⟩
  | succ g ih =>
    intro attempt lastErr waits
    by_cases hg : (attempt : ℤ) ≤ retries
    · cases horacle : oracle (attempt + 1) with
      | resp res =>
        by_cases hok : respOk res.status = true
        · exact ⟨[], by rw [runFrom_step_ok hg horacle hok]; simp⟩
        · rw [Bool.not_eq_true] at hok
          by_cases hbudget : (attempt : ℤ) + 1 ≤ retries
          · by_cases hretry : retryableStatus res.status = true
            · rw [runFrom_step_retry hg horacle hok hretry hbudget]
              obtain ⟨rest, hrest⟩ := ih (attempt + 1) lastErr
                (waits ++ [statusWaitMs backoffBase maxRA (attempt + 1) res.retryAfter
                  (rand (attempt + 1))])
              exact ⟨_, by rw [hrest, List.append_assoc]⟩
            · rw [Bool.not_eq_true] at hretry
              exact ⟨[], by rw [runFrom_step_terminal hg horacle hok (Or.inl hretry)]; simp⟩
          · exact ⟨[], by rw [runFrom_step_terminal hg horacle hok (Or.inr hbudget)]; simp⟩
      | err e =>
        by_cases hbudget : (attempt : ℤ) + 1 ≤ retries
        · by_cases htr : isTransientError (some e) = true
          · rw [runFrom_step_transient hg horacle htr hbudget]
            obtain ⟨rest, hrest⟩ := ih (attempt + 1) (some e)
              (waits ++ [jitter (backoffBase * 2 ^ (attempt + 1 - 1)) (rand (attempt + 1))])
            exact ⟨_, by rw [hrest, List.append_assoc]⟩
          · rw [Bool.not_eq_true] at htr
            exact ⟨[], by rw [runFrom_step_raise hg horacle (Or.inl htr)]; simp⟩
        · exact ⟨[], by rw [runFrom_step_raise hg horacle (Or.inr hbudget)]; simp⟩
    · exact ⟨[], by rw [runFrom_step_exit hg]; simp⟩

/-- With a non-negative backoff base and non-negative random draws, every
wait the loop sleeps is non-negative. -/
theorem runFrom_waits_nonneg (hb : 0 ≤ backoffBase) (hr : ∀ k, 0 ≤ rand k) :
    ∀ (gas attempt : ℕ) (lastErr : Option JsError) (waits : List ℤ),
      (∀ w ∈ waits, 0 ≤ w) →
      ∀ w ∈ (runFrom url retries backoffBase maxRA oracle rand gas attempt lastErr
          waits).waits, 0 ≤ w := by
  intro gas
  induction gas with
  | zero =>
    intro attempt lastErr waits hacc
    rw [runFrom_zero]
    exact hacc
  | succ g ih =>
    intro attempt lastErr waits hacc
    by_cases hg : (attempt : ℤ) ≤ retries
    · cases horacle : oracle (attempt + 1) with
      | resp res =>
        by_cases hok : respOk res.status = true
        · rw [runFrom_step_ok hg horacle hok]
          exact hacc
        · rw [Bool.not_eq_true] at hok
          by_cases hbudget : (attempt : ℤ) + 1 ≤ retries
          · by_cases hretry : retryableStatus res.status = true
            · rw [runFrom_step_retry hg horacle hok hretry hbudget]
              apply ih
              intro w hw
              rcases List.mem_append.mp hw with hmem | hmem
              · exact hacc w hmem
              · rcases List.mem_singleton.mp hmem with rfl
                exact statusWaitMs_nonneg maxRA (attempt + 1) _ hb (hr (attempt + 1))
            · rw [Bool.not_eq_true] at hretry
              rw [runFrom_step_terminal hg horacle hok (Or.inl hretry)]
              exact hacc
          · rw [runFrom_step_terminal hg horacle hok (Or.inr hbudget)]
            exact hacc
      | err e =>
        by_cases hbudget : (attempt : ℤ) + 1 ≤ retries
        · by_cases htr : isTransientError (some e) = true
          · rw [runFrom_step_transient hg horacle htr hbudget]
            apply ih
            intro w hw
            rcases List.mem_append.mp hw with hmem | hmem
            · exact hacc w hmem
            · rcases List.mem_singleton.mp hmem with rfl
              have hbase : 0 ≤ backoffBase * 2 ^ (attempt + 1 - 1) :=
                mul_nonneg hb (pow_nonneg (by norm_num) _)
              exact le_trans hbase (le_jitter hbase (hr (attempt + 1)))
          · rw [Bool.not_eq_true] at htr
            rw [runFrom_step_raise hg horacle (Or.inl htr)]
            exact hacc
        · rw [runFrom_step_raise hg horacle (Or.inr hbudget)]
          exact hacc
    · rw [runFrom_step_exit hg]
      exact hacc

/-- Any response the loop returns with a non-ok status went through the
diagnostic body read, so its body is consumed. -/
theorem runFrom_ret_nonok_bodyUsed :
    ∀ (gas attempt : ℕ) (lastErr : Option JsError) (waits : List ℤ) (r : Response),
      (runFrom url retries backoffBase maxRA oracle rand gas attempt lastErr
        waits).result = .ret r →
      respOk r.status = false → r.bodyUsed = true := by
  intro gas
  induction gas with
  | zero =>
    intro attempt lastErr waits r hret hnok
    rw [runFrom_zero] at hret
    rcases lastErr with _ | e <;> simp [exitResult] at hret
  | succ g ih =>
    intro attempt lastErr waits r hret hnok
    by_cases hg : (attempt : ℤ) ≤ retries
    · cases horacle : oracle (attempt + 1) with
      | resp res =>
        by_cases hok : respOk res.status = true
        · rw [runFrom_step_ok hg horacle hok] at hret
          simp at hret
          subst hret
          rw [hok] at hnok
          cases hnok
        · rw [Bool.not_eq_true] at hok
          by_cases hbudget : (attempt : ℤ) + 1 ≤ retries
          · by_cases hretry : retryableStatus res.status = true
            · rw [runFrom_step_retry hg horacle hok hretry hbudget] at hret
              exact ih _ _ _ r hret hnok
            · rw [Bool.not_eq_true] at hretry
              rw [runFrom_step_terminal hg horacle hok (Or.inl hretry)] at hret
              simp at hret
              subst hret
              rfl
          · rw [runFrom_step_terminal hg horacle hok (Or.inr hbudget)] at hret
            simp at hret
            subst hret
            rfl
      | err e =>
        by_cases hbudget : (attempt : ℤ) + 1 ≤ retries
        · by_cases htr : isTransientError (some e) = true
          · rw [runFrom_step_transient hg horacle htr hbudget] at hret
            exact ih _ _ _ r hret hnok
          · rw [Bool.not_eq_true] at htr
            rw [runFrom_step_raise hg horacle (Or.inl htr)] at hret
            simp at hret
        · rw [runFrom_step_raise hg horacle (Or.inr hbudget)] at hret
          simp at hret
    · rw [runFrom_step_exit hg] at hret
      rcases lastErr with _ | e <;> simp [exitResult] at hret

/-- If every attempt throws the same transient error, the loop consumes the
whole budget and then re-raises that error. -/
theorem runFrom_all_transient_err {e : JsError}
    (he : ∀ k, oracle k = .err e) (htr : isTransientError (some e) = true) :
    ∀ (gas attempt : ℕ) (lastErr : Option JsError) (waits : List ℤ),
      (gas : ℤ) + attempt = retries + 1 →
      (1 ≤ gas ∨ lastErr = some e) →
      (runFrom url retries backoffBase maxRA oracle rand gas attempt lastErr
        waits).result = .raised e := by
  intro gas
  induction gas with
  | zero =>
    intro attempt lastErr waits h hd
    rcases hd with hd | hd
    · exact absurd hd (by omega)
    · subst hd
      rw [runFrom_zero]
      rfl
  | succ g ih =>
    intro attempt lastErr waits h hd
    push_cast at h
    have hg : (attempt : ℤ) ≤ retries := by omega
    by_cases hbudget : (attempt : ℤ) + 1 ≤ retries
    · rw [runFrom_step_transient hg (he (attempt + 1)) htr hbudget]
      apply ih
      · push_cast
        omega
      · exact Or.inr rfl
    · rw [runFrom_step_raise hg (he (attempt + 1)) (Or.inr hbudget)]

/-- If every attempt completes with a retryable non-ok status, the loop
consumes the whole budget and returns the last (body-consumed) response. -/
theorem runFrom_all_retryable {f : ℕ → Response}
    (hf : ∀ k, oracle k = .resp (f k)) (hn : ∀ k, respOk (f k).status = false)
    (hy : ∀ k, retryableStatus (f k).status = true) :
    ∀ (gas attempt : ℕ) (lastErr : Option JsError) (waits : List ℤ),
      (gas : ℤ) + attempt = retries + 1 → 1 ≤ gas →
      (runFrom url retries backoffBase maxRA oracle rand gas attempt lastErr
          waits).result = .ret { f (attempt + gas) with bodyUsed := true }
      ∧ (runFrom url retries backoffBase maxRA oracle rand gas attempt lastErr
          waits).attempts = attempt + gas := by
  intro gas
  induction gas with
  | zero =>
    intro attempt lastErr waits h h1
    exact absurd h1 (by omega)
  | succ g ih =>
    intro attempt lastErr waits h h1
    push_cast at h
    have hg : (attempt : ℤ) ≤ retries := by omega
    by_cases hbudget : (attempt : ℤ) + 1 ≤ retries
    · rw [runFrom_step_retry hg (hf (attempt + 1)) (hn (attempt + 1))
        (hy (attempt + 1)) hbudget]
      have hrec := ih (attempt + 1) lastErr
        (waits ++ [statusWaitMs backoffBase maxRA (attempt + 1)
          (f (attempt + 1)).retryAfter (rand (attempt + 1))])
        (by push_cast; omega) (by omega)
      rw [show attempt + 1 + g = attempt + (g + 1) from by omega] at hrec
      exact hrec
    · have hg0 : g = 0 := by omega
      subst hg0
      rw [runFrom_step_terminal hg (hf (attempt + 1)) (hn (attempt + 1)) (Or.inr hbudget)]
      exact ⟨rfl, rfl⟩

end Loop

/-! ### Fixtures used by the witnesses and counterexamples -/

/-- A 404 response with a fresh body. -/
def resp404 : Response := { status := 404, retryAfter := none, body := "nf", bodyUsed := false }

/-- Network that answers 404 on every attempt. -/
def oracle404 : ℕ → AttemptOutcome := fun _ => .resp resp404

/-- A 429 response with no Retry-After header. -/
def resp429 : Response := { status := 429, retryAfter := none, body := "", bodyUsed := false }

/-- Network that answers 429 on every attempt. -/
def oracle429 : ℕ → AttemptOutcome := fun _ => .resp resp429

/-- A transport error whose code is outside the transient set. -/
def errFatal : JsError := { code := some "EACCES", name := some "Error" }

/-- Network whose every attempt throws `errFatal`. -/
def oracleFatal : ℕ → AttemptOutcome := fun _ => .err errFatal

/-! ### Claim theorems -/

/-- C1: for every url and configuration with retry count `retries ≥ 0`, one
`fetchWithRetry` call performs at most `retries + 1` fetch attempts before
returning or raising. -/
theorem attempts_within_budget (url : String) (retries backoffBase maxRA : ℤ)
    (oracle : ℕ → AttemptOutcome) (rand : ℕ → ℚ) (h : 0 ≤ retries) :
    ((fetchWithRetry url retries backoffBase maxRA oracle rand).attempts : ℤ)
      ≤ retries + 1 := by
  unfold fetchWithRetry
  apply runFrom_attempts_le
  push_cast
  omega

theorem attempts_within_budget_witness :
    (0 : ℤ) ≤ 3
    ∧ ((fetchWithRetry "u" 3 500 120 oracle503 rand0).attempts : ℤ) ≤ 3 + 1 :=
  ⟨by norm_num, attempts_within_budget "u" 3 500 120 oracle503 rand0 (by norm_num)⟩

/-- C2: with `retries ≥ 0`, `fetchWithRetry` never raises because of an HTTP
status: any raised error was thrown by one of the attempts, the generic
line-290 error is unreachable, a run whose attempts all complete returns a
response, and with `retries = 3` four consecutive 429 responses end with the
4th response returned (body consumed), not raised. -/
theorem status_failures_never_raise (url : String) (retries backoffBase maxRA : ℤ)
    (oracle : ℕ → AttemptOutcome) (rand : ℕ → ℚ) (h : 0 ≤ retries) :
    (∀ e, (fetchWithRetry url retries backoffBase maxRA oracle rand).result = .raised e →
      ∃ k : ℕ, 1 ≤ k ∧ (k : ℤ) ≤ retries + 1 ∧ oracle k = .err e)
    ∧ (∀ msg, (fetchWithRetry url retries backoffBase maxRA oracle rand).result
        ≠ .raisedGeneric msg)
    ∧ ((∀ k, ∃ r, oracle k = .resp r) →
        ∃ r, (fetchWithRetry url retries backoffBase maxRA oracle rand).result = .ret r)
    ∧ (∀ f : ℕ → Response, (∀ k, oracle k = .resp (f k)) → (∀ k, (f k).status = 429) →
        retries = 3 →
        (fetchWithRetry url retries backoffBase maxRA oracle rand).result
          = .ret { f 4 with bodyUsed := true }
        ∧ (fetchWithRetry url retries backoffBase maxRA oracle rand).attempts = 4) := by
  have h0 : (((retries + 1).toNat : ℕ) : ℤ) + ((0 : ℕ) : ℤ) = retries + 1 := by
    push_cast
    omega
  have h1 : 1 ≤ (retries + 1).toNat := by omega
  have horigin := @runFrom_result_origin url retries backoffBase maxRA oracle rand
    (retries + 1).toNat 0 none [] h0 h1
  refine ⟨?_, ?_, ?_, ?_⟩
  · intro e hret
    unfold fetchWithRetry at hret
    rcases horigin with ⟨r, hr⟩ | ⟨e2, hk, hr⟩
    · rw [hret] at hr
      simp at hr
    · rw [hret] at hr
      injection hr with h2
      subst h2
      exact hk
  · intro msg hmsg
    unfold fetchWithRetry at hmsg
    rcases horigin with ⟨r, hr⟩ | ⟨e2, hk, hr⟩ <;> rw [hmsg] at hr <;> simp at hr
  · intro hall
    rcases horigin with ⟨r, hr⟩ | ⟨e2, ⟨k, hk1, hk2, hke⟩, hr⟩
    · exact ⟨r, hr⟩
    · obtain ⟨r2, hr2⟩ := hall k
      rw [hke] at hr2
      simp at hr2
  · intro f hf hs h3
    subst h3
    have hnok : ∀ k, respOk (f k).status = false := fun k => by rw [hs k]; rfl
    have hrty : ∀ k, retryableStatus (f k).status = true := fun k => by rw [hs k]; rfl
    have hinv : ((((3 : ℤ) + 1).toNat : ℕ) : ℤ) + ((0 : ℕ) : ℤ) = (3 : ℤ) + 1 := by
      norm_num
    have hgas : 1 ≤ ((3 : ℤ) + 1).toNat := by norm_num
    unfold fetchWithRetry
    exact runFrom_all_retryable hf hnok hrty ((3 : ℤ) + 1).toNat 0 none [] hinv hgas

theorem status_failures_never_raise_witness :
    (0 : ℤ) ≤ 3
    ∧ (∃ r, (fetchWithRetry "u" 3 500 120 oracle429 rand0).result = .ret r) :=
  ⟨by norm_num,
    (status_failures_never_raise "u" 3 500 120 oracle429 rand0 (by norm_num)).2.2.1
      (fun _ => ⟨resp429, rfl⟩)⟩

/-- C3 counterexample: a Retry-After header of 0 seconds (so `H = 0` with
`0 ≤ H ≤ maxRetryAfterSecs`) does not make the wait `H * 1000 = 0` ms: the
`waitMs <= 0` test of line 252 discards it and the jittered backoff is used
instead. -/
theorem retry_after_zero_not_honored :
    (0 : ℤ) ≤ 0 ∧ (0 : ℤ) ≤ 120
    ∧ statusWaitMs 500 120 1 (some (RAHeader.asInt 0)) (1 / 2) ≠ 0 * 1000 := by
  refine ⟨le_refl 0, by norm_num, ?_⟩
  norm_num [statusWaitMs, headerWaitMs, jitter, jitterDelta]

/-- C3 amended: for a strictly positive header value `1 ≤ H ≤ maxRA`, the
wait is exactly `H * 1000` ms regardless of attempt number; and in a run
whose first attempt yields a retryable non-ok status carrying that header
with budget remaining, the first slept wait is exactly `H * 1000` ms. -/
theorem header_wait_honored_when_positive (backoffBase maxRA : ℤ) (a : ℕ) (H : ℤ)
    (r : ℚ) (h1 : 1 ≤ H) (h2 : H ≤ maxRA) :
    statusWaitMs backoffBase maxRA a (some (.asInt H)) r = H * 1000
    ∧ ∀ (url : String) (retries : ℤ) (oracle : ℕ → AttemptOutcome) (rand : ℕ → ℚ)
        (res : Response),
        oracle 1 = .resp res → respOk res.status = false →
        retryableStatus res.status = true → res.retryAfter = some (.asInt H) →
        1 ≤ retries →
        ((fetchWithRetry url retries backoffBase maxRA oracle rand).waits).head?
          = some (H * 1000) := by
  have hw : headerWaitMs maxRA (some (RAHeader.asInt H)) = H * 1000 := by
    simp [headerWaitMs, min_eq_left h2]
  have hmain : ∀ (a2 : ℕ) (r2 : ℚ),
      statusWaitMs backoffBase maxRA a2 (some (.asInt H)) r2 = H * 1000 := by
    intro a2 r2
    unfold statusWaitMs
    rw [hw, if_neg (by omega)]
  refine ⟨hmain a r, ?_⟩
  intro url retries oracle rand res ho hok hrty hra hret
  have hg0 : ((0 : ℕ) : ℤ) ≤ retries := by push_cast; omega
  have hbud : ((0 : ℕ) : ℤ) + 1 ≤ retries := by push_cast; omega
  obtain ⟨g, hg⟩ : ∃ g, (retries + 1).toNat = g + 1 :=
    ⟨(retries + 1).toNat - 1, by omega⟩
  unfold fetchWithRetry
  rw [hg, runFrom_step_retry hg0 ho hok hrty hbud, hra]
  obtain ⟨rest, hrest⟩ := @runFrom_waits_acc url retries backoffBase maxRA oracle rand
    g 1 none ([] ++ [statusWaitMs backoffBase maxRA (0 + 1) (some (RAHeader.asInt H))
      (rand (0 + 1))])
  rw [hrest]
  simp only [List.nil_append, List.cons_append, List.head?_cons]
  rw [hmain]

theorem header_wait_honored_when_positive_witness :
    (1 : ℤ) ≤ 7 ∧ (7 : ℤ) ≤ 120
    ∧ statusWaitMs 500 120 2 (some (RAHeader.asInt 7)) (1 / 2) = 7 * 1000 :=
  ⟨by norm_num, by norm_num,
    (header_wait_honored_when_positive 500 120 2 7 (1 / 2) (by norm_num)
      (by norm_num)).1⟩

/-- C4 counterexample: with `backoffBaseMs = 13`, attempt 1 and the random
draw 0.99 the backoff wait is 15 ms, above the claimed upper bound
`1.15 * 13 * 2^0 = 14.95`. -/
theorem jitter_exceeds_claimed_band :
    (0 : ℚ) ≤ 99 / 100 ∧ (99 / 100 : ℚ) < 1
    ∧ ¬ (((statusWaitMs 13 120 1 none (99 / 100) : ℤ) : ℚ)
          ≤ (23 / 20 : ℚ) * ((13 * 2 ^ (1 - 1) : ℤ) : ℚ)) := by
  refine ⟨by norm_num, by norm_num, ?_⟩
  have hv : statusWaitMs 13 120 1 none (99 / 100) = 15 := by
    norm_num [statusWaitMs, headerWaitMs, jitter, jitterDelta]
  rw [hv]
  norm_num

/-- C4 amended: with no header hint the wait before attempt `a + 1` lies in
`[0.85 * base, ⌈1.15 * base⌉]` for `base = backoffBase * 2^(a-1)`; the
implemented jitter is one-sided, so the wait in fact never falls below
`base` itself. -/
theorem backoff_wait_within_jittered_band (backoffBase maxRA : ℤ) (a : ℕ) (r : ℚ)
    (hb : 0 ≤ backoffBase) (h0 : 0 ≤ r) (h1 : r < 1) :
    (17 / 20 : ℚ) * ((backoffBase * 2 ^ (a - 1) : ℤ) : ℚ)
        ≤ ((statusWaitMs backoffBase maxRA a none r : ℤ) : ℚ)
    ∧ statusWaitMs backoffBase maxRA a none r
        ≤ ⌈(23 / 20 : ℚ) * ((backoffBase * 2 ^ (a - 1) : ℤ) : ℚ)⌉ := by
  have hbase : (0 : ℤ) ≤ backoffBase * 2 ^ (a - 1) :=
    mul_nonneg hb (pow_nonneg (by norm_num) _)
  rw [statusWaitMs_no_header]
  constructor
  · have hj := le_jitter hbase h0
    have hbq : (0 : ℚ) ≤ ((backoffBase * 2 ^ (a - 1) : ℤ) : ℚ) := by exact_mod_cast hbase
    have hjq : ((backoffBase * 2 ^ (a - 1) : ℤ) : ℚ)
        ≤ ((jitter (backoffBase * 2 ^ (a - 1)) r : ℤ) : ℚ) := by exact_mod_cast hj
    linarith
  · exact jitter_le_ceil hbase (le_of_lt h1)

theorem backoff_wait_within_jittered_band_witness :
    (0 : ℤ) ≤ 500 ∧ (0 : ℚ) ≤ 1 / 2 ∧ (1 / 2 : ℚ) < 1
    ∧ ((17 / 20 : ℚ) * ((500 * 2 ^ (1 - 1) : ℤ) : ℚ)
        ≤ ((statusWaitMs 500 120 1 none (1 / 2) : ℤ) : ℚ)
      ∧ statusWaitMs 500 120 1 none (1 / 2)
        ≤ ⌈(23 / 20 : ℚ) * ((500 * 2 ^ (1 - 1) : ℤ) : ℚ)⌉) :=
  ⟨by norm_num, by norm_num, by norm_num,
    backoff_wait_within_jittered_band 500 120 1 (1 / 2) (by norm_num) (by norm_num)
      (by norm_num)⟩

/-- C5: a completed non-ok response is eligible for retry exactly when its
status is 429 or in [500, 600); any other non-ok status is terminal and the
(body-consumed) response is returned immediately, with no further attempt. -/
theorem retryable_statuses_exact (url : String) (retries backoffBase maxRA : ℤ)
    (oracle : ℕ → AttemptOutcome) (rand : ℕ → ℚ) (h : 0 ≤ retries) :
    (∀ s : ℕ, retryableStatus s = true ↔ (s = 429 ∨ (500 ≤ s ∧ s < 600)))
    ∧ (∀ res : Response, oracle 1 = .resp res → respOk res.status = false →
        retryableStatus res.status = false →
        (fetchWithRetry url retries backoffBase maxRA oracle rand).result
          = .ret { res with bodyUsed := true }
        ∧ (fetchWithRetry url retries backoffBase maxRA oracle rand).attempts = 1) := by
  constructor
  · intro s
    simp [retryableStatus]
  · intro res ho hok hrty
    have hg0 : ((0 : ℕ) : ℤ) ≤ retries := by push_cast; omega
    obtain ⟨g, hg⟩ : ∃ g, (retries + 1).toNat = g + 1 :=
      ⟨(retries + 1).toNat - 1, by omega⟩
    unfold fetchWithRetry
    rw [hg, runFrom_step_terminal hg0 ho hok (Or.inl hrty)]
    exact ⟨rfl, rfl⟩

theorem retryable_statuses_exact_witness :
    (0 : ℤ) ≤ 3
    ∧ ((fetchWithRetry "u" 3 500 120 oracle404 rand0).result
        = .ret { resp404 with bodyUsed := true }
      ∧ (fetchWithRetry "u" 3 500 120 oracle404 rand0).attempts = 1) :=
  ⟨by norm_num,
    (retryable_statuses_exact "u" 3 500 120 oracle404 rand0 (by norm_num)).2
      resp404 rfl rfl rfl⟩

/-- C6: `isTransientError` is a pure classifier returning true exactly when
the error's code is one of the six transient codes or its name is
"FetchError" or "AbortError"; everything else (including a null error) is
fatal. -/
theorem isTransientError_exact :
    ∀ e : Option JsError,
      isTransientError e = true ↔
        ∃ err, e = some err ∧
          ((err.code = some "ECONNRESET" ∨ err.code = some "ETIMEDOUT"
             ∨ err.code = some "EAI_AGAIN" ∨ err.code = some "ENOTFOUND"
             ∨ err.code = some "EPIPE" ∨ err.code = some "ECONNREFUSED")
           ∨ err.name = some "FetchError" ∨ err.name = some "AbortError") := by
  intro e
  match e with
  | none => simp [isTransientError]
  | some err =>
    rcases err with ⟨code, name⟩
    constructor
    · intro h
      refine ⟨⟨code, name⟩, rfl, ?_⟩
      simp only [isTransientError] at h
      by_cases hc : (strTruthy code && transientCodes.contains (code.getD "")) = true
      · left
        rw [Bool.and_eq_true] at hc
        obtain ⟨ht, hcont⟩ := hc
        rcases code with _ | c
        · simp [strTruthy] at ht
        · simp only [Option.getD_some] at hcont
          have hmem : c ∈ transientCodes := by simpa using hcont
          simp only [transientCodes, List.mem_cons, List.not_mem_nil, or_false] at hmem
          rcases hmem with rfl | rfl | rfl | rfl | rfl | rfl <;> simp
      · rw [if_neg hc] at h
        by_cases hn : (name == some "FetchError" || name == some "AbortError") = true
        · right
          rw [Bool.or_eq_true] at hn
          rcases hn with hn | hn
          · left
            simpa using hn
          · right
            simpa using hn
        · rw [if_neg hn] at h
          cases h
    · rintro ⟨err2, heq, hdis⟩
      injection heq with heq2
      subst heq2
      rcases hdis with (hc | hc | hc | hc | hc | hc) | hn | hn
      · have h2 : code = some "ECONNRESET" := hc
        subst h2
        rfl
      · have h2 : code = some "ETIMEDOUT" := hc
        subst h2
        rfl
      · have h2 : code = some "EAI_AGAIN" := hc
        subst h2
        rfl
      · have h2 : code = some "ENOTFOUND" := hc
        subst h2
        rfl
      · have h2 : code = some "EPIPE" := hc
        subst h2
        rfl
      · have h2 : code = some "ECONNREFUSED" := hc
        subst h2
        rfl
      · have h2 : name = some "FetchError" := hn
        subst h2
        rcases Bool.eq_false_or_eq_true
            (strTruthy code && transientCodes.contains (code.getD "")) with hb | hb <;>
          simp [isTransientError, hb]
      · have h2 : name = some "AbortError" := hn
        subst h2
        rcases Bool.eq_false_or_eq_true
            (strTruthy code && transientCodes.contains (code.getD "")) with hb | hb <;>
          simp [isTransientError, hb]

/-- C7: a fatal error on attempt 1 is re-raised immediately (no attempt 2);
and when every attempt throws the same transient error, the original error
object is re-raised once the budget is exhausted. -/
theorem transport_error_raise_behaviour (url : String) (retries backoffBase maxRA : ℤ)
    (oracle : ℕ → AttemptOutcome) (rand : ℕ → ℚ) (h : 0 ≤ retries) :
    (∀ e : JsError, oracle 1 = .err e → isTransientError (some e) = false →
        (fetchWithRetry url retries backoffBase maxRA oracle rand).result = .raised e
        ∧ (fetchWithRetry url retries backoffBase maxRA oracle rand).attempts = 1)
    ∧ (∀ e : JsError, (∀ k, oracle k = .err e) → isTransientError (some e) = true →
        (fetchWithRetry url retries backoffBase maxRA oracle rand).result = .raised e) := by
  constructor
  · intro e ho hfatal
    have hg0 : ((0 : ℕ) : ℤ) ≤ retries := by push_cast; omega
    obtain ⟨g, hg⟩ : ∃ g, (retries + 1).toNat = g + 1 :=
      ⟨(retries + 1).toNat - 1, by omega⟩
    unfold fetchWithRetry
    rw [hg, runFrom_step_raise hg0 ho (Or.inl hfatal)]
    exact ⟨rfl, rfl⟩
  · intro e he htr
    have hinv : (((retries + 1).toNat : ℕ) : ℤ) + ((0 : ℕ) : ℤ) = retries + 1 := by
      push_cast
      omega
    unfold fetchWithRetry
    exact runFrom_all_transient_err he htr (retries + 1).toNat 0 none [] hinv
      (Or.inl (by omega))

theorem transport_error_raise_behaviour_witness :
    (0 : ℤ) ≤ 3
    ∧ ((fetchWithRetry "u" 3 500 120 oracleFatal rand0).result = .raised errFatal
      ∧ (fetchWithRetry "u" 3 500 120 oracleFatal rand0).attempts = 1) :=
  ⟨by norm_num,
    (transport_error_raise_behaviour "u" 3 500 120 oracleFatal rand0 (by norm_num)).1
      errFatal rfl rfl⟩

/-- C8 counterexample: `opts.backoffBase = -100` is an integer, so it is
used as-is, and with random draw 0 the first slept wait is -100 ms:
negative. -/
theorem negative_backoff_negative_wait :
    (-100 : ℤ) ∈ (fetchWithRetry "u" 3 (-100) 120 oracle503 rand0).waits
    ∧ ¬ ((0 : ℤ) ≤ (-100 : ℤ)) := by
  constructor
  · have hw : (fetchWithRetry "u" 3 (-100) 120 oracle503 rand0).waits
        = [-100, -200, -400] := by
      simp [fetchWithRetry, runFrom, oracle503, resp503, rand0, statusWaitMs,
        headerWaitMs, readResponseSnippet, textRead, respOk, retryableStatus,
        jitter_zero_draw]
    rw [hw]
    simp
  · norm_num

/-- C8 amended: with a non-negative backoff base and non-negative random
draws every slept wait is non-negative; and a wait taken from a Retry-After
header (integer or date) never exceeds `maxRetryAfterSecs * 1000`,
unconditionally. -/
theorem waits_nonneg_and_header_capped (url : String) (retries backoffBase maxRA : ℤ)
    (oracle : ℕ → AttemptOutcome) (rand : ℕ → ℚ)
    (hb : 0 ≤ backoffBase) (hr : ∀ k, 0 ≤ rand k) :
    (∀ w ∈ (fetchWithRetry url retries backoffBase maxRA oracle rand).waits, 0 ≤ w)
    ∧ (∀ (a : ℕ) (ra : Option RAHeader) (r : ℚ), 0 < headerWaitMs maxRA ra →
        statusWaitMs backoffBase maxRA a ra r ≤ maxRA * 1000) := by
  constructor
  · unfold fetchWithRetry
    exact runFrom_waits_nonneg hb hr (retries + 1).toNat 0 none [] (by simp)
  · intro a ra r hpos
    rw [statusWaitMs_header hpos]
    exact headerWaitMs_le_cap hpos

theorem waits_nonneg_and_header_capped_witness :
    (0 : ℤ) ≤ 500 ∧ (∀ k, (0 : ℚ) ≤ rand0 k)
    ∧ ((∀ w ∈ (fetchWithRetry "u" 3 500 120 oracle503 rand0).waits, 0 ≤ w)
      ∧ (∀ (a : ℕ) (ra : Option RAHeader) (r : ℚ), 0 < headerWaitMs 120 ra →
          statusWaitMs 500 120 a ra r ≤ 120 * 1000)) :=
  ⟨by norm_num, fun _ => le_refl 0,
    waits_nonneg_and_header_capped "u" 3 500 120 oracle503 rand0 (by norm_num)
      (fun _ => le_refl 0)⟩

/-- C9: every non-ok response returned by `fetchWithRetry` has its body
already consumed by the diagnostic snippet read, so a subsequent body read
by the caller fails instead of yielding the payload. -/
theorem returned_nonok_body_consumed (url : String) (retries backoffBase maxRA : ℤ)
    (oracle : ℕ → AttemptOutcome) (rand : ℕ → ℚ) :
    ∀ res : Response,
      (fetchWithRetry url retries backoffBase maxRA oracle rand).result = .ret res →
      respOk res.status = false →
      res.bodyUsed = true ∧ ∃ m, textRead res = .error m := by
  intro res hret hnok
  unfold fetchWithRetry at hret
  have hbody := runFrom_ret_nonok_bodyUsed _ 0 none [] res hret hnok
  exact ⟨hbody, ⟨"body used already", by simp [textRead, hbody]⟩⟩

theorem returned_nonok_body_consumed_witness :
    ({ resp404 with bodyUsed := true } : Response).bodyUsed = true
    ∧ ∃ m, textRead { resp404 with bodyUsed := true } = .error m :=
  returned_nonok_body_consumed "u" 3 500 120 oracle404 rand0
    { resp404 with bodyUsed := true } rfl rfl

/-- C10: a negative integer `opts.retries` yields zero fetch attempts and
the generic line-290 error naming the url; no wait is slept. -/
theorem negative_retries_zero_attempts (url : String) (retries backoffBase maxRA : ℤ)
    (oracle : ℕ → AttemptOutcome) (rand : ℕ → ℚ) (h : retries < 0) :
    (fetchWithRetry url retries backoffBase maxRA oracle rand).result
      = .raisedGeneric ("fetch-with-retries: failed to fetch " ++ url)
    ∧ (fetchWithRetry url retries backoffBase maxRA oracle rand).attempts = 0
    ∧ (fetchWithRetry url retries backoffBase maxRA oracle rand).waits = [] := by
  have hg : (retries + 1).toNat = 0 := by omega
  unfold fetchWithRetry
  rw [hg, runFrom_zero]
  exact ⟨rfl, rfl, rfl⟩

theorem negative_retries_zero_attempts_witness :
    (-2 : ℤ) < 0
    ∧ ((fetchWithRetry "u" (-2) 500 120 oracle503 rand0).result
        = .raisedGeneric ("fetch-with-retries: failed to fetch " ++ "u")
      ∧ (fetchWithRetry "u" (-2) 500 120 oracle503 rand0).attempts = 0
      ∧ (fetchWithRetry "u" (-2) 500 120 oracle503 rand0).waits = []) :=
  ⟨by norm_num, negative_retries_zero_attempts "u" (-2) 500 120 oracle503 rand0
    (by norm_num)⟩

end Monitor
